import Mathlib

/-!
Verification of the course-pilot document ingestion, deduplication and
retrieval-augmented answering pipeline, shallowly embedded from
`src/backend/app` (services `document_service.py`, `vector_store.py`,
`qa_chain.py`, `attachment_processor.py`, `document_loader.py` and the chat
route `chat.py`).  Python text is modelled as `List Char` where
character-level operations matter and as `String` elsewhere; the filesystem
and the SQL store are modelled by explicit state passing; fallible calls are
modelled with `Except` and `Option`.
-/

/-! ## Question validation (`QAChainService.validate_question`) -/

/-- Whitespace characters stripped by Python `str.strip()` (ASCII range). -/
def pyWhitespace (c : Char) : Bool :=
  c == ' ' || c == '\t' || c == '\n' || c == '\r' || c == Char.ofNat 11 || c == Char.ofNat 12

/-- Python `str.strip()`: drop leading and trailing whitespace. -/
def pyStrip (s : List Char) : List Char :=
  ((s.dropWhile pyWhitespace).reverse.dropWhile pyWhitespace).reverse

/-- `QAChainService.validate_question` (qa_chain.py): reject when the string is
falsy or strips to nothing, when the stripped text has fewer than 3
characters, or when the raw text has more than 1000 characters. -/
def validate_question (question : List Char) : Bool :=
  if question.isEmpty || (pyStrip question).isEmpty then false
  else if (pyStrip question).length < 3 then false
  else if question.length > 1000 then false
  else true

/-! ## Deduplication (`DocumentService`) -/

/-- A row of the `documents` table (migration `migrate_document_model.py`),
restricted to the fields the deduplication logic reads. -/
structure DocRecord where
  id : String
  topic_id : String
  file_hash : String
  content_hash : String
  is_processed : Bool
deriving DecidableEq, Repr

/-- `DocumentService.check_duplicate_by_file_hash`: first row whose file hash
matches, additionally scoped to the topic when the optional topic id is truthy
(a nonempty string). -/
def check_duplicate_by_file_hash (db : List DocRecord) (fh : String)
    (topic_id : Option String) : Option DocRecord :=
  match topic_id with
  | some t =>
      if t = "" then db.find? (fun d => d.file_hash == fh)
      else db.find? (fun d => d.file_hash == fh && d.topic_id == t)
  | none => db.find? (fun d => d.file_hash == fh)

/-- `DocumentService.check_duplicate_by_content_hash`: first row whose content
hash matches, additionally scoped to the topic when the optional topic id is
truthy. -/
def check_duplicate_by_content_hash (db : List DocRecord) (ch : String)
    (topic_id : Option String) : Option DocRecord :=
  match topic_id with
  | some t =>
      if t = "" then db.find? (fun d => d.content_hash == ch)
      else db.find? (fun d => d.content_hash == ch && d.topic_id == t)
  | none => db.find? (fun d => d.content_hash == ch)

/-- Second phase of `DocumentService.is_document_already_processed`: extract
the content hash (the extraction may raise, in which case the surrounding
`except` returns "not a duplicate") and accept only a first content-hash match
that is marked processed. -/
def content_processed_check (db : List DocRecord) (extracted : Except String String)
    (topic_id : String) : Bool × Option DocRecord :=
  match extracted with
  | .error _ => (false, none)
  | .ok content_hash =>
      match check_duplicate_by_content_hash db content_hash (some topic_id) with
      | some d => if d.is_processed then (true, some d) else (false, none)
      | none => (false, none)

/-- `DocumentService.is_document_already_processed`: file-hash check first,
accepting only a match marked processed, then the content-hash check. -/
def is_document_already_processed (db : List DocRecord) (file_hash : String)
    (extracted : Except String String) (topic_id : String) : Bool × Option DocRecord :=
  match check_duplicate_by_file_hash db file_hash (some topic_id) with
  | some d =>
      if d.is_processed then (true, some d)
      else content_processed_check db extracted topic_id
  | none => content_processed_check db extracted topic_id

/-- Outcome of `DocumentService.process_document_upload`. -/
inductive UploadOutcome where
  /-- Either hash matched an existing row: the upload is rejected and the
  existing record returned. -/
  | duplicate (existing : DocRecord)
  /-- Both checks found nothing: control proceeds to record creation and
  vector indexing (modelled abstractly; the claim under study only concerns
  the deduplication decision). -/
  | proceed (chunks : Nat)
  /-- Content extraction raised; the wrapping handler re-raises. -/
  | error (msg : String)
deriving DecidableEq, Repr

/-- `DocumentService.process_document_upload` (document_service.py), restricted
to its deduplication decision: the saved file is summarised by its byte hash
`file_hash`, and extraction by the content hash and chunk count it would
produce.  Note that neither hash check consults `is_processed` on this path. -/
def process_document_upload (db : List DocRecord) (topic_id : String)
    (file_hash : String) (extracted : Except String (String × Nat)) : UploadOutcome :=
  match check_duplicate_by_file_hash db file_hash (some topic_id) with
  | some d => .duplicate d
  | none =>
      match extracted with
      | .error e => .error ("Failed to process document upload: Failed to extract content: " ++ e)
      | .ok (content_hash, nchunks) =>
          match check_duplicate_by_content_hash db content_hash (some topic_id) with
          | some d => .duplicate d
          | none => .proceed nchunks

/-! ## Vector store (`VectorStoreService`) -/

/-- The on-disk vector-store area: each topic directory
(`persist_directory/<topic_id>`) is mapped to the list of chunks persisted in
it.  A key that is absent models a directory that does not exist. -/
def VectorFS (α : Type) : Type := List (String × List α)

/-- `os.path.exists` on a topic directory. -/
def dirExists {α : Type} (fs : VectorFS α) (t : String) : Bool :=
  (List.lookup t fs).isSome

/-- Chunks currently persisted in a topic directory (empty when absent). -/
def dirContents {α : Type} (fs : VectorFS α) (t : String) : List α :=
  (List.lookup t fs).getD []

/-- `shutil.rmtree` on a topic directory. -/
def rmtree {α : Type} (fs : VectorFS α) (t : String) : VectorFS α :=
  List.filter (fun e => e.1 != t) fs

/-- Flush (`vectorstore.persist()`) the given chunk list as the new content of
a topic directory, creating the directory when absent. -/
def setDir {α : Type} (fs : VectorFS α) (t : String) (docs : List α) : VectorFS α :=
  (t, docs) :: rmtree fs t

/-- Errors propagating out of the vector-store service. -/
inductive PyErr where
  /-- Python `UnboundLocalError`: a local variable referenced before
  assignment. -/
  | unboundLocal (name : String)
  /-- An exception re-raised by an `except` handler with a wrapping message. -/
  | wrapped (msg : String)
deriving DecidableEq, Repr

/-- The fixed embedding batch size used by both index-creation loops
(`batch_size = 50`). -/
def batchSize : Nat := 50

/-- Worker for `chunkBatches`, structurally recursive on a fuel argument that
is always instantiated with the list length (each step drops `batchSize ≥ 1`
elements, so the fuel never runs out on the intended calls). -/
def chunkBatchesF {α : Type} : Nat → List α → List (List α)
  | _, [] => []
  | 0, l => [l]
  | fuel + 1, a :: l => ((a :: l).take batchSize) :: chunkBatchesF fuel ((a :: l).drop batchSize)

/-- Consecutive batches of at most `batchSize` chunks: the slices
`documents[i:i + batch_size]` visited by the loops. -/
def chunkBatches {α : Type} (l : List α) : List (List α) :=
  chunkBatchesF l.length l

/-- The batched embed-and-persist loop shared by `create_topic_index` and
`create_topic_index_with_deduplication`: each iteration embeds one batch into
the topic directory and flushes; `embedOk j` says whether the embedding call
for batch number `j` succeeds.  `cur` is the directory content accumulated so
far.  A failing batch stops the loop, carrying the filesystem as flushed up to
that point (the exception the Python loop raises). -/
def runBatches {α : Type} (embedOk : Nat → Bool) (t : String) :
    VectorFS α → List α → Nat → List (List α) → Except (VectorFS α) (VectorFS α)
  | fs, _, _, [] => .ok fs
  | fs, cur, j, b :: bs =>
      if embedOk j then
        runBatches embedOk t (setDir fs t (cur ++ b)) (cur ++ b) (j + 1) bs
      else .error fs

/-- `VectorStoreService.create_topic_index` (vector_store.py lines 24-68).  An
empty document list raises `ValueError` before the local `topic_persist_dir`
is assigned, so the `except` handler itself fails with `UnboundLocalError`
when it reads that local; any failure inside the batch loop is cleaned up by
`shutil.rmtree` on the topic directory and re-raised wrapped. -/
def create_topic_index {α : Type} (embedOk : Nat → Bool) (fs : VectorFS α)
    (topic_id : String) (documents : List α) : Except PyErr Unit × VectorFS α :=
  if documents.isEmpty then
    (.error (.unboundLocal "topic_persist_dir"), fs)
  else
    match runBatches embedOk topic_id fs [] 0 (chunkBatches documents) with
    | .ok fs1 => (.ok (), fs1)
    | .error fs1 =>
        (.error (.wrapped "Failed to create vector index"),
         if dirExists fs1 topic_id then rmtree fs1 topic_id else fs1)

/-- Embed-and-record phase of `create_topic_index_with_deduplication`: run the
batched loop, appending to the pre-existing directory content when there is
one, and on success append the new `Document` row marked processed.  The
`except` handler of the Python function performs no filesystem cleanup (its
body is `pass`), so on failure the partially-flushed directory is left as
is. -/
def dedup_embed_and_record {α : Type} (embedOk : Nat → Bool) (db : List DocRecord)
    (fs : VectorFS α) (topic_id file_hash content_hash newId : String)
    (chunks : List α) :
    Except PyErr (Bool × Option Nat) × VectorFS α × List DocRecord :=
  match runBatches embedOk topic_id fs (dirContents fs topic_id) 0 (chunkBatches chunks) with
  | .ok fs1 =>
      (.ok (true, some chunks.length), fs1,
       db ++ [⟨newId, topic_id, file_hash, content_hash, true⟩])
  | .error fs1 => (.error (.wrapped "Failed to process document"), fs1, db)

/-- `VectorStoreService.create_topic_index_with_deduplication` (vector_store.py
lines 241-341): duplicate gates first (`is_document_already_processed`, a
non-empty-chunks check, then a second content-hash check accepting only a
processed match), then the batched loop and the database record.  As in the
source, a duplicate is a non-error result `(False, None)` and extraction
failure propagates wrapped. -/
def create_topic_index_with_deduplication {α : Type} (embedOk : Nat → Bool)
    (db : List DocRecord) (fs : VectorFS α) (topic_id : String) (file_hash : String)
    (extracted : Except String (String × List α)) (newId : String) :
    Except PyErr (Bool × Option Nat) × VectorFS α × List DocRecord :=
  match is_document_already_processed db file_hash (Except.map Prod.fst extracted) topic_id with
  | (true, some _) => (.ok (false, none), fs, db)
  | _ =>
      match extracted with
      | .error e => (.error (.wrapped ("Failed to process document: " ++ e)), fs, db)
      | .ok (content_hash, chunks) =>
          if chunks.isEmpty then (.ok (false, none), fs, db)
          else
            match check_duplicate_by_content_hash db content_hash (some topic_id) with
            | some d =>
                if d.is_processed then (.ok (false, none), fs, db)
                else dedup_embed_and_record embedOk db fs topic_id file_hash content_hash newId chunks
            | none => dedup_embed_and_record embedOk db fs topic_id file_hash content_hash newId chunks

theorem chunkBatchesF_fuel_irrel {α : Type} :
    ∀ (fuel₁ : Nat) (fuel₂ : Nat) (l : List α), l.length ≤ fuel₁ → l.length ≤ fuel₂ →
      chunkBatchesF fuel₁ l = chunkBatchesF fuel₂ l := by
  intro fuel₁
  induction fuel₁ with
  | zero =>
      intro fuel₂ l hl _
      have : l = [] := List.eq_nil_of_length_eq_zero (Nat.le_zero.mp hl)
      subst this
      cases fuel₂ <;> rfl
  | succ n ih =>
      intro fuel₂ l h1 h2
      cases l with
      | nil => cases fuel₂ <;> rfl
      | cons a l =>
          cases fuel₂ with
          | zero => exact absurd h2 (by simp)
          | succ m =>
              show _ :: chunkBatchesF n ((a :: l).drop batchSize)
                  = _ :: chunkBatchesF m ((a :: l).drop batchSize)
              have hd : ((a :: l).drop batchSize).length ≤ l.length := by
                simp only [List.length_drop, List.length_cons, batchSize]; omega
              have hn : l.length ≤ n := by simpa using h1
              have hm : l.length ≤ m := by simpa using h2
              rw [ih m _ (Nat.le_trans hd hn) (Nat.le_trans hd hm)]

/-- Unfolding equation for `chunkBatches` on a nonempty list. -/
theorem chunkBatches_cons {α : Type} (a : α) (l : List α) :
    chunkBatches (a :: l) = ((a :: l).take batchSize) :: chunkBatches ((a :: l).drop batchSize) := by
  show chunkBatchesF (l.length + 1) (a :: l) = _
  show _ :: chunkBatchesF l.length ((a :: l).drop batchSize) = _
  rw [chunkBatchesF_fuel_irrel l.length ((a :: l).drop batchSize).length ((a :: l).drop batchSize)
      (by simp only [List.length_drop, List.length_cons, batchSize]; omega) le_rfl]
  rfl

/-! ## Claim analysis: question validation -/

theorem validate_question_false_iff (q : List Char) :
    validate_question q = false ↔ ((pyStrip q).length < 3 ∨ 1000 < q.length) := by
  unfold validate_question
  split_ifs with h1 h2 h3
  · refine iff_of_true rfl (Or.inl ?_)
    rcases Bool.or_eq_true_iff.mp h1 with h | h
    · have hq : q = [] := List.isEmpty_iff.mp h
      subst hq
      decide
    · simp [List.isEmpty_iff.mp h]
  · exact iff_of_true rfl (Or.inl h2)
  · exact iff_of_true rfl (Or.inr h3)
  · refine iff_of_false (by simp) ?_
    rintro (h | h)
    · exact h2 h
    · exact h3 h

theorem validate_question_true_of (q : List Char)
    (h : ¬((pyStrip q).length < 3 ∨ 1000 < q.length)) : validate_question q = true := by
  cases hv : validate_question q
  · exact absurd ((validate_question_false_iff q).mp hv) h
  · rfl

theorem dropWhile_replicate_a (n : Nat) :
    (List.replicate n 'a').dropWhile pyWhitespace = List.replicate n 'a' := by
  cases n with
  | zero => rfl
  | succ m =>
      rw [List.replicate_succ, List.dropWhile_cons]
      simp [(by decide : pyWhitespace 'a' = false)]

theorem pyStrip_replicate_a (n : Nat) :
    pyStrip (List.replicate n 'a') = List.replicate n 'a' := by
  unfold pyStrip
  rw [dropWhile_replicate_a, List.reverse_replicate, dropWhile_replicate_a,
    List.reverse_replicate]

/-- C5 counterexample: the question "ab " (raw length 3, hence not rejected by
the claim's raw-length reading, and neither empty nor whitespace-only) is
nevertheless rejected by `validate_question`, because the minimum-length check
is applied to the stripped text. -/
theorem validate_question_counterexample :
    validate_question ['a', 'b', ' '] = false ∧
    ¬(pyStrip ['a', 'b', ' '] = [] ∨ (['a', 'b', ' '] : List Char).length < 3 ∨
      1000 < (['a', 'b', ' '] : List Char).length) := by decide

/-- C5 (amended): `validate_question` rejects a question exactly when its
whitespace-stripped text is shorter than 3 characters (this subsumes empty and
whitespace-only questions) or its raw text is longer than 1000 characters; in
particular a plain question of length 2 is rejected, lengths 3 and 1000 are
accepted, and length 1001 is rejected. -/
theorem validate_question_spec :
    (∀ q : List Char, validate_question q = false ↔
      ((pyStrip q).length < 3 ∨ 1000 < q.length)) ∧
    validate_question (List.replicate 2 'a') = false ∧
    validate_question (List.replicate 3 'a') = true ∧
    validate_question (List.replicate 1000 'a') = true ∧
    validate_question (List.replicate 1001 'a') = false := by
  refine ⟨validate_question_false_iff, ?_, ?_, ?_, ?_⟩
  · exact (validate_question_false_iff _).mpr
      (Or.inl (by rw [pyStrip_replicate_a, List.length_replicate]; omega))
  · exact validate_question_true_of _
      (by rw [pyStrip_replicate_a, List.length_replicate]; omega)
  · exact validate_question_true_of _
      (by rw [pyStrip_replicate_a, List.length_replicate]; omega)
  · exact (validate_question_false_iff _).mpr
      (Or.inr (by rw [List.length_replicate]; omega))

/-! ## Claim analysis: upload deduplication -/

theorem content_processed_check_processed (db : List DocRecord)
    (ex : Except String String) (t : String) (b : Bool) (d : DocRecord)
    (h : content_processed_check db ex t = (b, some d)) :
    b = true ∧ d.is_processed = true := by
  unfold content_processed_check at h
  split at h
  · simp at h
  · split at h
    · split at h
      · next hp =>
          injection h with h1 h2
          injection h2 with h2
          subst h2
          exact ⟨h1.symm, hp⟩
      · simp at h
    · simp at h

theorem is_document_already_processed_sound (db : List DocRecord) (fh : String)
    (ex : Except String String) (t : String) (b : Bool) (d : DocRecord)
    (h : is_document_already_processed db fh ex t = (b, some d)) :
    b = true ∧ d.is_processed = true := by
  unfold is_document_already_processed at h
  split at h
  · split at h
    · next hp =>
        injection h with h1 h2
        injection h2 with h2
        subst h2
        exact ⟨h1.symm, hp⟩
    · exact content_processed_check_processed db ex t b d h
  · exact content_processed_check_processed db ex t b d h

/-- C1 counterexample: on the route's upload path (`process_document_upload`),
a same-topic file-hash match whose record is NOT marked processed still
rejects the upload as a duplicate and returns that record, contradicting the
claim that a hash match on a document not marked processed does not reject the
upload. -/
theorem process_upload_rejects_unprocessed_match :
    process_document_upload [⟨"d0", "t1", "fh", "ch", false⟩] "t1" "fh" (.ok ("ch2", 5))
        = .duplicate ⟨"d0", "t1", "fh", "ch", false⟩ ∧
    (⟨"d0", "t1", "fh", "ch", false⟩ : DocRecord).is_processed = false := by
  exact ⟨rfl, rfl⟩

/-- C1 (amended): on the upload route's path (`process_document_upload`) the
two checks run in order — the content hash only when the file hash found no
match at all — both scoped to the same topic, and a match on either hash
rejects the upload and returns the existing record regardless of its
`is_processed` flag; the processed-only restriction described by the claim
holds only on the `is_document_already_processed` path used by
`create_topic_index_with_deduplication`. -/
theorem process_upload_dedup_spec (db : List DocRecord) (t fh ch : String)
    (n : Nat) (ht : t ≠ "") :
    ((∃ d, process_document_upload db t fh (.ok (ch, n)) = .duplicate d) ↔
      (∃ d ∈ db, d.topic_id = t ∧ (d.file_hash = fh ∨ d.content_hash = ch))) ∧
    (∀ d, db.find? (fun x => x.file_hash == fh && x.topic_id == t) = some d →
      process_document_upload db t fh (.ok (ch, n)) = .duplicate d) ∧
    (∀ b d, is_document_already_processed db fh (.ok ch) t = (b, some d) →
      b = true ∧ d.is_processed = true) := by
  have hfile : check_duplicate_by_file_hash db fh (some t)
      = db.find? (fun x => x.file_hash == fh && x.topic_id == t) := by
    simp [check_duplicate_by_file_hash, ht]
  have hcont : check_duplicate_by_content_hash db ch (some t)
      = db.find? (fun x => x.content_hash == ch && x.topic_id == t) := by
    simp [check_duplicate_by_content_hash, ht]
  refine ⟨⟨?_, ?_⟩, ?_, fun b d h => is_document_already_processed_sound db fh (.ok ch) t b d h⟩
  · rintro ⟨d, hd⟩
    unfold process_document_upload at hd
    rw [hfile] at hd
    split at hd
    · next d0 heq =>
        injection hd with hd1
        subst hd1
        refine ⟨d0, List.mem_of_find?_eq_some heq, ?_⟩
        have hp := List.find?_some heq
        simp only [Bool.and_eq_true, beq_iff_eq] at hp
        exact ⟨hp.2, Or.inl hp.1⟩
    · dsimp only at hd
      rw [hcont] at hd
      split at hd
      · next d1 heq =>
          injection hd with hd1
          subst hd1
          refine ⟨d1, List.mem_of_find?_eq_some heq, ?_⟩
          have hp := List.find?_some heq
          simp only [Bool.and_eq_true, beq_iff_eq] at hp
          exact ⟨hp.2, Or.inr hp.1⟩
      · simp at hd
  · rintro ⟨d, hmem, hdt, hor⟩
    rcases hf : db.find? (fun x => x.file_hash == fh && x.topic_id == t) with _ | d0
    · rcases hc : db.find? (fun x => x.content_hash == ch && x.topic_id == t) with _ | d1
      · exfalso
        rw [List.find?_eq_none] at hf hc
        rcases hor with h | h
        · exact hf d hmem (by simp [h, hdt])
        · exact hc d hmem (by simp [h, hdt])
      · refine ⟨d1, ?_⟩
        unfold process_document_upload
        rw [hfile, hf]
        dsimp only
        rw [hcont, hc]
    · refine ⟨d0, ?_⟩
      unfold process_document_upload
      rw [hfile, hf]
  · intro d hd
    unfold process_document_upload
    rw [hfile, hd]

/-- Witness for `process_upload_dedup_spec` at a concrete topic and a
one-row database whose row matches the file hash. -/
theorem process_upload_dedup_spec_witness :
    process_document_upload [⟨"d0", "t1", "fh", "ch", true⟩] "t1" "fh" (.ok ("ch", 0))
        = .duplicate ⟨"d0", "t1", "fh", "ch", true⟩ ∧
    (true = true ∧ (⟨"d0", "t1", "fh", "ch", true⟩ : DocRecord).is_processed = true) :=
  ⟨(process_upload_dedup_spec [⟨"d0", "t1", "fh", "ch", true⟩] "t1" "fh" "ch" 0
      (by decide)).2.1 ⟨"d0", "t1", "fh", "ch", true⟩ rfl,
   (process_upload_dedup_spec [⟨"d0", "t1", "fh", "ch", true⟩] "t1" "fh" "ch" 0
      (by decide)).2.2 true ⟨"d0", "t1", "fh", "ch", true⟩ rfl⟩

/-! ## Claim analysis: index creation -/

/-- C3 (code bug): with an empty chunk list, `create_topic_index` raises the
empty-input `ValueError` before the local `topic_persist_dir` is assigned, so
its own `except` handler crashes with `UnboundLocalError` — the caller never
sees an EmptyInput-kind error (although no index is created: the filesystem is
returned unchanged); for every non-empty chunk list that branch is not
taken. -/
theorem create_topic_index_empty_input {α : Type} (embedOk : Nat → Bool)
    (fs : VectorFS α) (t : String) :
    (create_topic_index embedOk fs t ([] : List α)
        = (.error (.unboundLocal "topic_persist_dir"), fs)) ∧
    (∀ docs : List α, docs ≠ [] →
      (create_topic_index embedOk fs t docs).1 ≠ .error (.unboundLocal "topic_persist_dir")) := by
  constructor
  · rfl
  · intro docs hd
    cases docs with
    | nil => exact absurd rfl hd
    | cons a l =>
        unfold create_topic_index
        rw [if_neg (by simp)]
        split
        · simp
        · simp

/-- Witness for `create_topic_index_empty_input` at concrete arguments. -/
theorem create_topic_index_empty_input_witness :
    (create_topic_index (fun _ => true) ([] : VectorFS Nat) "t1" ([] : List Nat)
        = (.error (.unboundLocal "topic_persist_dir"), [])) ∧
    (create_topic_index (fun _ => true) ([] : VectorFS Nat) "t1" [0]).1
        ≠ .error (.unboundLocal "topic_persist_dir") :=
  ⟨(create_topic_index_empty_input (fun _ => true) ([] : VectorFS Nat) "t1").1,
   (create_topic_index_empty_input (fun _ => true) ([] : VectorFS Nat) "t1").2 [0]
     (by decide)⟩

/-- C2 (code bug): when `create_topic_index_with_deduplication` fails part-way
through the batched loop (here: fresh topic, 51 chunks, the second embedding
batch fails), its `except` handler performs no cleanup (its body is `pass`),
so the partially-flushed index directory is left in place and `exists(topic)`
is still true after the error — the claimed removal of the partial index
happens only in `create_topic_index`. -/
theorem dedup_failure_leaves_partial_index :
    (create_topic_index_with_deduplication (fun j => j == 0) [] ([] : VectorFS Nat)
        "t1" "fh" (.ok ("ch", List.replicate 51 0)) "d1").1
      = .error (.wrapped "Failed to process document") ∧
    dirExists (create_topic_index_with_deduplication (fun j => j == 0) [] ([] : VectorFS Nat)
        "t1" "fh" (.ok ("ch", List.replicate 51 0)) "d1").2.1 "t1" = true := by
  exact ⟨rfl, rfl⟩

/-! ## Claim analysis: batched embedding -/

theorem chunkBatchesF_mem_length {α : Type} :
    ∀ (fuel : Nat) (l : List α), l.length ≤ fuel →
      ∀ b ∈ chunkBatchesF fuel l, b.length ≤ batchSize := by
  intro fuel
  induction fuel with
  | zero =>
      intro l hl b hb
      have hnil : l = [] := List.eq_nil_of_length_eq_zero (Nat.le_zero.mp hl)
      subst hnil
      simp [chunkBatchesF] at hb
  | succ n ih =>
      intro l hl b hb
      cases l with
      | nil => simp [chunkBatchesF] at hb
      | cons a l =>
          simp only [chunkBatchesF, List.mem_cons] at hb
          rcases hb with hb | hb
          · subst hb
            exact List.length_take_le _ _
          · have hd : ((a :: l).drop batchSize).length ≤ n := by
              simp only [List.length_drop, List.length_cons, batchSize]
              have : l.length ≤ n := by simpa using hl
              omega
            exact ih _ hd b hb

theorem chunkBatchesF_flatten {α : Type} :
    ∀ (fuel : Nat) (l : List α), l.length ≤ fuel → (chunkBatchesF fuel l).flatten = l := by
  intro fuel
  induction fuel with
  | zero =>
      intro l hl
      have hnil : l = [] := List.eq_nil_of_length_eq_zero (Nat.le_zero.mp hl)
      subst hnil
      rfl
  | succ n ih =>
      intro l hl
      cases l with
      | nil => rfl
      | cons a l =>
          have hd : ((a :: l).drop batchSize).length ≤ n := by
            simp only [List.length_drop, List.length_cons, batchSize]
            have : l.length ≤ n := by simpa using hl
            omega
          show ((a :: l).take batchSize :: chunkBatchesF n ((a :: l).drop batchSize)).flatten
              = a :: l
          rw [List.flatten_cons, ih _ hd, List.take_append_drop]

theorem chunkBatchesF_take_flatten {α : Type} :
    ∀ (fuel : Nat) (l : List α) (k : Nat), l.length ≤ fuel →
      ((chunkBatchesF fuel l).take k).flatten = l.take (batchSize * k) := by
  intro fuel
  induction fuel with
  | zero =>
      intro l k hl
      have hnil : l = [] := List.eq_nil_of_length_eq_zero (Nat.le_zero.mp hl)
      subst hnil
      simp [chunkBatchesF]
  | succ n ih =>
      intro l k hl
      cases l with
      | nil => simp [chunkBatchesF]
      | cons a l =>
          cases k with
          | zero => simp
          | succ k =>
              have hd : ((a :: l).drop batchSize).length ≤ n := by
                simp only [List.length_drop, List.length_cons, batchSize]
                have : l.length ≤ n := by simpa using hl
                omega
              show ((((a :: l).take batchSize :: chunkBatchesF n ((a :: l).drop batchSize)).take
                  (k + 1)).flatten) = (a :: l).take (batchSize * (k + 1))
              rw [List.take_succ_cons, List.flatten_cons, ih _ k hd, Nat.mul_succ,
                Nat.add_comm (batchSize * k) batchSize, List.take_add]

theorem chunkBatches_mem_length {α : Type} (l : List α) :
    ∀ b ∈ chunkBatches l, b.length ≤ batchSize :=
  chunkBatchesF_mem_length l.length l le_rfl

theorem chunkBatches_flatten {α : Type} (l : List α) :
    (chunkBatches l).flatten = l :=
  chunkBatchesF_flatten l.length l le_rfl

theorem chunkBatches_take_flatten {α : Type} (l : List α) (k : Nat) :
    ((chunkBatches l).take k).flatten = l.take (batchSize * k) :=
  chunkBatchesF_take_flatten l.length l k le_rfl

theorem lookup_setDir_self {α : Type} (fs : VectorFS α) (t : String) (d : List α) :
    List.lookup t (setDir fs t d) = some d := by
  simp [setDir, List.lookup]

/-- Stopping behaviour of the batch loop: when the embedding call succeeds for
every batch number below `k` and fails at batch `k`, the loop stops with an
error carrying the filesystem flushed so far, whose topic directory holds the
accumulated content followed by the first `k - j` remaining batches. -/
theorem runBatches_stops {α : Type} (t : String) (k : Nat) :
    ∀ (bs : List (List α)) (fs : VectorFS α) (cur : List α) (j : Nat),
      j ≤ k → k - j < bs.length →
      ∃ fs1, runBatches (fun x => decide (x < k)) t fs cur j bs = .error fs1 ∧
        List.lookup t fs1 =
          (if j = k then List.lookup t fs else some (cur ++ (bs.take (k - j)).flatten)) := by
  intro bs
  induction bs with
  | nil =>
      intro fs cur j hj hlen
      simp at hlen
  | cons b bs ih =>
      intro fs cur j hj hlen
      by_cases hjk : j = k
      · subst hjk
        exact ⟨fs, by simp [runBatches], by rw [if_pos rfl]⟩
      · have hjlt : j < k := Nat.lt_of_le_of_ne hj hjk
        have h1 : j + 1 ≤ k := hjlt
        have h2 : k - (j + 1) < bs.length := by
          simp only [List.length_cons] at hlen
          omega
        obtain ⟨fs1, heq, hlook⟩ := ih (setDir fs t (cur ++ b)) (cur ++ b) (j + 1) h1 h2
        refine ⟨fs1, ?_, ?_⟩
        · simp only [runBatches]
          rw [if_pos (by simp [hjlt])]
          exact heq
        · rw [hlook]
          by_cases hk1 : j + 1 = k
          · rw [if_pos hk1, if_neg hjk, lookup_setDir_self]
            have hkj : k - j = 1 := by omega
            rw [hkj]
            simp
          · rw [if_neg hk1, if_neg hjk]
            have hkj : k - j = (k - (j + 1)) + 1 := by omega
            rw [hkj, List.take_succ_cons, List.flatten_cons, List.append_assoc]

/-- C4: on both index-creation paths the chunk list is embedded and persisted
in consecutive source-order batches of at most `batchSize = 50` chunks, with a
flush after every batch, so that when the embedding call for 0-based batch `k`
fails after `k` successful batches, the persisted topic directory still holds
exactly the first `50 * k` chunks in source order — the committed batches are
not lost by the failure (the loop stops; cleanup policy afterwards is a
property of the callers, not of the flushing loop). -/
theorem batched_index_creation_spec {α : Type} (docs : List α) (t : String)
    (fs : VectorFS α) (k : Nat) (hk0 : 0 < k) (hk : k < (chunkBatches docs).length) :
    (∀ b ∈ chunkBatches docs, b.length ≤ batchSize) ∧
    (chunkBatches docs).flatten = docs ∧
    (∃ fs1, runBatches (fun j => decide (j < k)) t fs [] 0 (chunkBatches docs) = .error fs1 ∧
      List.lookup t fs1 = some (docs.take (batchSize * k))) := by
  refine ⟨chunkBatches_mem_length docs, chunkBatches_flatten docs, ?_⟩
  obtain ⟨fs1, heq, hlook⟩ := runBatches_stops t k (chunkBatches docs) fs [] 0
    (Nat.zero_le k) (by simpa using hk)
  refine ⟨fs1, heq, ?_⟩
  rw [hlook, if_neg (by omega), Nat.sub_zero, List.nil_append, chunkBatches_take_flatten]

/-- Topic-directory content carried by a failed batch loop, used to state a
quantifier-free witness. -/
def errorLookup {α : Type} (t : String) (r : Except (VectorFS α) (VectorFS α)) :
    Option (List α) :=
  match r with
  | .error fs => List.lookup t fs
  | .ok _ => none

/-- Witness for `batched_index_creation_spec`: 51 chunks, failure at batch 1
after batch 0 committed the first 50 chunks. -/
theorem batched_index_creation_spec_witness :
    (chunkBatches (List.replicate 51 (0 : Nat))).flatten = List.replicate 51 0 ∧
    errorLookup "t1" (runBatches (fun j => decide (j < 1)) "t1" ([] : VectorFS Nat) [] 0
        (chunkBatches (List.replicate 51 0)))
      = some ((List.replicate 51 (0 : Nat)).take (batchSize * 1)) := by
  obtain ⟨h1, h2, fs1, heq, hlook⟩ :=
    batched_index_creation_spec (List.replicate 51 0) "t1" ([] : VectorFS Nat) 1
      (by decide) (by decide)
  exact ⟨h2, by rw [heq]; exact hlook⟩

/-! ## Chat turn (`send_message` in routes/chat.py) -/

/-- The apostrophe character, kept out of string literals. -/
def squote : String := String.mk [Char.ofNat 39]

/-- A persisted chat message (row of the `messages` table as used by the
`send_message` route). -/
structure ChatMsg where
  sender : String
  message : String
  sources : List String
deriving DecidableEq, Repr

/-- `db_service.save_message`: append the message to the session message list
and return the stored row. -/
def save_message (msgs : List ChatMsg) (sender message : String)
    (sources : List String) : List ChatMsg × ChatMsg :=
  (msgs ++ [⟨sender, message, sources⟩], ⟨sender, message, sources⟩)

/-- Result of the AI-generation phase of a chat turn. -/
structure AiAnswer where
  answer : String
  sources : List String
deriving DecidableEq, Repr

/-- The fixed fallback assistant text persisted when AI generation fails. -/
def fallbackText : String :=
  "I" ++ squote
    ++ "m sorry, I encountered an error while processing your question. Please try again."

/-- The JSON body returned by a chat turn (userMessage, aiMessage, success). -/
structure TurnResponse where
  userMessage : ChatMsg
  aiMessage : ChatMsg
  success : Bool
deriving DecidableEq, Repr

/-- The post-validation phase of `send_message` (routes/chat.py lines
187-266): persist the user message, then run the AI-generation block
(retriever lookup, attachment handling, chain construction and the completion
call, abstracted as one fallible computation over the current message list);
on success persist and return the assistant answer, on any exception persist
and return the fixed fallback message with empty sources, marked
unsuccessful. -/
def send_message_turn (msgs : List ChatMsg) (text : String)
    (gen : List ChatMsg → Except String AiAnswer) : List ChatMsg × TurnResponse :=
  let s1 := save_message msgs "user" text []
  match gen s1.1 with
  | .ok r =>
      let s2 := save_message s1.1 "assistant" r.answer r.sources
      (s2.1, ⟨s1.2, s2.2, true⟩)
  | .error _ =>
      let s2 := save_message s1.1 "assistant" fallbackText []
      (s2.1, ⟨s1.2, s2.2, false⟩)

/-- C6: when the AI-generation block of a chat turn raises after the user
message was saved, the user message remains persisted and the fixed fallback
assistant message is persisted and returned in place of an answer. -/
theorem send_message_failure_preserves_user_message (msgs : List ChatMsg)
    (text : String) (gen : List ChatMsg → Except String AiAnswer) (e : String)
    (hgen : gen (msgs ++ [⟨"user", text, []⟩]) = .error e) :
    (send_message_turn msgs text gen).1
        = msgs ++ [⟨"user", text, []⟩, ⟨"assistant", fallbackText, []⟩] ∧
    (send_message_turn msgs text gen).2.userMessage = ⟨"user", text, []⟩ ∧
    (send_message_turn msgs text gen).2.aiMessage = ⟨"assistant", fallbackText, []⟩ ∧
    (⟨"user", text, []⟩ : ChatMsg) ∈ (send_message_turn msgs text gen).1 ∧
    (⟨"assistant", fallbackText, []⟩ : ChatMsg) ∈ (send_message_turn msgs text gen).1 := by
  simp [send_message_turn, save_message, hgen]

/-- Witness for `send_message_failure_preserves_user_message` with a failing
generator on an empty session. -/
theorem send_message_failure_witness :
    (send_message_turn [] "hello" (fun _ => .error "boom")).1
        = [] ++ [⟨"user", "hello", []⟩, ⟨"assistant", fallbackText, []⟩] ∧
    (send_message_turn [] "hello" (fun _ => .error "boom")).2.userMessage
        = ⟨"user", "hello", []⟩ ∧
    (send_message_turn [] "hello" (fun _ => .error "boom")).2.aiMessage
        = ⟨"assistant", fallbackText, []⟩ ∧
    (⟨"user", "hello", []⟩ : ChatMsg) ∈ (send_message_turn [] "hello" (fun _ => .error "boom")).1 ∧
    (⟨"assistant", fallbackText, []⟩ : ChatMsg)
        ∈ (send_message_turn [] "hello" (fun _ => .error "boom")).1 :=
  send_message_failure_preserves_user_message [] "hello" (fun _ => .error "boom") "boom" rfl

/-! ## Source citations (`QAChainService._extract_sources`) -/

/-- Chunk metadata as read by `_extract_sources`: the optional `page` key and
the `source` key (defaulted to the empty string).  `none` models a chunk whose
metadata dict is missing or empty (falsy). -/
structure ChunkMeta where
  page : Option Nat
  source : String
deriving DecidableEq, Repr

/-- A retrieved source chunk. -/
structure SourceDoc where
  page_content : String
  metadata : Option ChunkMeta
deriving DecidableEq, Repr

/-- `os.path.basename`: the final path component (the text after the last
slash). -/
def basename (s : String) : String :=
  String.mk ((s.toList.reverse.takeWhile (fun c => c != Char.ofNat 47)).reverse)

/-- The parenthesised location part of one citation: the 1-based page when the
metadata carries a page, else the basename of the source path when that is
nonempty, else nothing. -/
def pageInfo (d : SourceDoc) : String :=
  match d.metadata with
  | none => ""
  | some m =>
      match m.page with
      | some p => " (Page " ++ toString (p + 1) ++ ")"
      | none => if m.source = "" then "" else " (Source: " ++ basename m.source ++ ")"

/-- The content preview: the first 100 characters, with an ellipsis appended
exactly when the content is longer than 100 characters. -/
def contentPreview (s : String) : String :=
  if s.length > 100 then s.take 100 ++ "..." else s

/-- The enumerate loop of `_extract_sources`, carrying the 0-based index. -/
def extract_sources_go (i : Nat) : List SourceDoc → List String
  | [] => []
  | d :: ds =>
      ("Reference " ++ toString (i + 1) ++ pageInfo d ++ ": "
          ++ contentPreview d.page_content)
        :: extract_sources_go (i + 1) ds

/-- `QAChainService._extract_sources` (qa_chain.py lines 101-133). -/
def extract_sources (docs : List SourceDoc) : List String :=
  extract_sources_go 0 docs

theorem extract_sources_go_length (docs : List SourceDoc) :
    ∀ j, (extract_sources_go j docs).length = docs.length := by
  induction docs with
  | nil => intro j; rfl
  | cons d ds ih => intro j; simp [extract_sources_go, ih]

theorem extract_sources_go_get :
    ∀ (docs : List SourceDoc) (j i : Nat),
      (extract_sources_go j docs)[i]? = (docs[i]?).map (fun d =>
        "Reference " ++ toString (j + i + 1) ++ pageInfo d ++ ": "
          ++ contentPreview d.page_content) := by
  intro docs
  induction docs with
  | nil => intro j i; simp [extract_sources_go]
  | cons d ds ih =>
      intro j i
      cases i with
      | zero => simp [extract_sources_go]
      | succ i =>
          simp only [extract_sources_go, List.getElem?_cons_succ]
          rw [ih (j + 1) i]
          have harith : j + 1 + i = j + (i + 1) := by omega
          rw [harith]

/-- C7: the answering engine produces exactly one citation string per
retrieved chunk, in retrieval order; the citation at 0-based position `i`
carries the 1-based index `i + 1`, then the 1-based page number when the
chunk metadata has a page, else the basename of the source path when that is
nonempty, then the chunk text truncated to its first 100 characters with an
ellipsis appended exactly when the text is longer than 100 characters. -/
theorem extract_sources_spec (docs : List SourceDoc) (i : Nat) :
    (extract_sources docs).length = docs.length ∧
    (extract_sources docs)[i]? = (docs[i]?).map (fun d =>
      "Reference " ++ toString (i + 1) ++
        (match d.metadata with
         | none => ""
         | some m =>
             match m.page with
             | some p => " (Page " ++ toString (p + 1) ++ ")"
             | none =>
                 if m.source = "" then "" else " (Source: " ++ basename m.source ++ ")") ++
        ": " ++
        (if d.page_content.length > 100 then d.page_content.take 100 ++ "..."
         else d.page_content)) := by
  constructor
  · exact extract_sources_go_length docs 0
  · have h := extract_sources_go_get docs 0 i
    simpa [extract_sources, pageInfo, contentPreview] using h

/-! ## Chunking (text splitter, modelled from the spec) -/

/-- Modelled from the spec: the text splitters used by `DocumentLoader`
(`CharacterTextSplitter`) and `AttachmentProcessor`
(`RecursiveCharacterTextSplitter`) are `langchain` library code and are
absent from this repository; per the spec, splitting decomposes the text into
indivisible units at natural boundaries and greedily merges consecutive units
(separator included) into chunks of at most the configured size, keeping a
single oversized unit whole.  This is the greedy merge, with the chunk under
construction accumulated in `cur`. -/
def mergeUnits_go (maxSize : Nat) (sep : String) (cur : String) :
    List String → List String
  | [] => [cur]
  | u :: us =>
      if (cur ++ sep ++ u).length ≤ maxSize then
        mergeUnits_go maxSize sep (cur ++ sep ++ u) us
      else cur :: mergeUnits_go maxSize sep u us

/-- Modelled from the spec: split a sequence of indivisible units into chunks
of at most `maxSize` characters (see `mergeUnits_go`). -/
def splitUnits (maxSize : Nat) (sep : String) : List String → List String
  | [] => []
  | u :: us => mergeUnits_go maxSize sep u us

/-- The ingestion chunker configuration (`DocumentLoader`,
`CharacterTextSplitter` with a paragraph separator; chunk size 500 or 1000
depending on call site). -/
def load_and_split_chunks (chunk_size : Nat) (units : List String) : List String :=
  splitUnits chunk_size "\n\n" units

/-- The attachment chunker configuration (`AttachmentProcessor.__init__`,
chunk size 500, separators headed by the paragraph break). -/
def attachment_split_chunks (units : List String) : List String :=
  splitUnits 500 "\n\n" units

theorem mergeUnits_go_mem (maxSize : Nat) (sep : String) :
    ∀ (us : List String) (cur : String), ∀ c ∈ mergeUnits_go maxSize sep cur us,
      c.length ≤ maxSize ∨ c = cur ∨ c ∈ us := by
  intro us
  induction us with
  | nil =>
      intro cur c hc
      simp only [mergeUnits_go, List.mem_singleton] at hc
      exact Or.inr (Or.inl hc)
  | cons u us ih =>
      intro cur c hc
      simp only [mergeUnits_go] at hc
      split at hc
      · next hle =>
          rcases ih (cur ++ sep ++ u) c hc with h | h | h
          · exact Or.inl h
          · exact Or.inl (h ▸ hle)
          · exact Or.inr (Or.inr (List.mem_cons_of_mem u h))
      · rcases List.mem_cons.mp hc with h | h
        · exact Or.inr (Or.inl h)
        · rcases ih u c h with h2 | h2 | h2
          · exact Or.inl h2
          · exact Or.inr (Or.inr (h2 ▸ List.mem_cons_self u us))
          · exact Or.inr (Or.inr (List.mem_cons_of_mem u h2))

theorem splitUnits_mem (maxSize : Nat) (sep : String) (units : List String)
    (c : String) (hc : c ∈ splitUnits maxSize sep units) :
    c.length ≤ maxSize ∨ c ∈ units := by
  cases units with
  | nil => simp [splitUnits] at hc
  | cons u us =>
      rcases mergeUnits_go_mem maxSize sep us u c hc with h | h | h
      · exact Or.inl h
      · exact Or.inr (h ▸ List.mem_cons_self u us)
      · exact Or.inr (List.mem_cons_of_mem u h)

/-- C8 (spec-modelled chunker): no produced chunk exceeds the configured
maximum size unless it is one of the indivisible source units, kept whole;
this holds on the ingestion chunking path and on the attachment chunking
path. -/
theorem chunk_size_bound (chunk_size : Nat) (units : List String) (c : String) :
    (c ∈ load_and_split_chunks chunk_size units → c.length ≤ chunk_size ∨ c ∈ units) ∧
    (c ∈ attachment_split_chunks units → c.length ≤ 500 ∨ c ∈ units) :=
  ⟨fun hc => splitUnits_mem chunk_size "\n\n" units c hc,
   fun hc => splitUnits_mem 500 "\n\n" units c hc⟩

/-- Witness for `chunk_size_bound`: two short units merged into one chunk
within the bound. -/
theorem chunk_size_bound_witness :
    (("aa\n\nbb" : String).length ≤ 10 ∨ ("aa\n\nbb" : String) ∈ ["aa", "bb"]) ∧
    (("aa\n\nbb" : String).length ≤ 500 ∨ ("aa\n\nbb" : String) ∈ ["aa", "bb"]) :=
  ⟨(chunk_size_bound 10 ["aa", "bb"] "aa\n\nbb").1 (by decide),
   (chunk_size_bound 10 ["aa", "bb"] "aa\n\nbb").2 (by decide)⟩

/-! ## Attachment content extraction (`AttachmentProcessor.extract_content`) -/

/-- A text segment returned by a loader (a `langchain` Document restricted to
its content). -/
structure Segment where
  page_content : String
deriving DecidableEq, Repr

/-- `AttachmentProcessor.SUPPORTED_TYPES`: extensions with a registered
handler. -/
def SUPPORTED_TYPES : List String :=
  [".pdf", ".txt", ".doc", ".docx", ".xls", ".xlsx", ".ppt", ".pptx", ".csv", ".rtf"]

/-- Python `str.lower()`. -/
def lowerStr (s : String) : String :=
  String.mk (s.toList.map Char.toLower)

/-- Python `Path(filename).suffix`: the final dot-suffix of the final path
component; empty when the name has no dot, starts with its only dot, or ends
with its last dot. -/
def pathSuffix (filename : String) : String :=
  let name := (basename filename).toList
  let pre := name.reverse.takeWhile (fun c => c != '.')
  if pre.length + 1 < name.length ∧ 0 < pre.length then
    String.mk ('.' :: pre.reverse)
  else ""

/-- `AttachmentProcessor.is_supported_file`. -/
def is_supported_file (filename : String) : Bool :=
  if filename = "" then false
  else SUPPORTED_TYPES.contains (lowerStr (pathSuffix filename))

/-- Metadata dictionary of an extraction result. -/
structure ExtractMeta where
  filename : String
  file_size : Nat
  supported : Bool
  error : Option String
  chunk_count : Option Nat
  content_length : Option Nat
deriving DecidableEq, Repr

/-- Extraction result dictionary (`content`, `chunks`, `metadata`). -/
structure ExtractResult where
  content : String
  chunks : List String
  metadata : ExtractMeta
deriving DecidableEq, Repr

/-- The inline-context size cap (4000 characters). -/
def contextCap : Nat := 4000

/-- The truncation marker appended when inline content is cut. -/
def truncationMarker : String := "\n... [Content truncated]"

/-- Newline-joined full content of the extracted segments. -/
def joinedContent (docs : List Segment) : String :=
  String.intercalate "\n" (docs.map (fun d => d.page_content))

/-- `AttachmentProcessor.extract_content` (attachment_processor.py lines
56-133).  The filesystem is summarised by `fileExists` and `fileSize`; the
selected handler (`processor_method`) by its outcome `handler`, where
`.error` models a raising handler; the configured
`text_splitter.split_documents` call by the parameter `split`.  Every raise
inside the body is caught by the final `except`, which returns an error
dictionary instead of propagating. -/
def extract_content (split : List Segment → List String) (fileExists : Bool)
    (fileSize : Nat) (original_filename : String)
    (handler : Except String (List Segment)) : Option ExtractResult :=
  if !fileExists then none
  else if !(is_supported_file original_filename) then
    some ⟨"File " ++ squote ++ original_filename ++ squote
        ++ " uploaded but content extraction not supported for this file type.",
      [], ⟨original_filename, fileSize, false, none, none, none⟩⟩
  else
    match handler with
    | .error e =>
        some ⟨"Error processing " ++ squote ++ original_filename ++ squote ++ ": " ++ e,
          [], ⟨original_filename, fileSize, false, some e, none, none⟩⟩
    | .ok [] =>
        some ⟨"No content could be extracted from " ++ squote ++ original_filename
            ++ squote ++ ".",
          [], ⟨original_filename, fileSize, true, none, none, none⟩⟩
    | .ok (d :: ds) =>
        let chunks := split (d :: ds)
        let full := joinedContent (d :: ds)
        let content :=
          if full.length > contextCap then full.take contextCap ++ truncationMarker
          else full
        some ⟨content, chunks.take 10,
          ⟨original_filename, fileSize, true, none, some chunks.length, some content.length⟩⟩

/-- `DocumentService.extract_and_hash_content` (document_service.py lines
35-49): load and split the PDF (fallible; failures are re-raised wrapped),
join ALL chunk contents with a newline and hash the joined text; the chunks
are returned in full, with no truncation anywhere on this path.  The SHA-256
function is abstracted as the parameter `sha`. -/
def extract_and_hash_content (sha : String → String)
    (loaded : Except String (List Segment)) : Except String (String × List Segment) :=
  match loaded with
  | .error e => .error ("Failed to extract content: " ++ e)
  | .ok chunks => .ok (sha (joinedContent chunks), chunks)

/-- C9: on the attachment-as-context path, extracted text longer than 4000
characters is returned truncated to its first 4000 characters with the
truncation marker appended, text of at most 4000 characters is returned
unmodified, and the ingestion-for-indexing path applies no truncation: it
hashes the full joined text and returns the chunks in full. -/
theorem attachment_truncation_spec (split : List Segment → List String)
    (fileSize : Nat) (fn : String) (d : Segment) (ds : List Segment)
    (hsupp : is_supported_file fn = true) :
    (contextCap < (joinedContent (d :: ds)).length →
      (extract_content split true fileSize fn (.ok (d :: ds))).map (fun r => r.content)
        = some ((joinedContent (d :: ds)).take contextCap ++ truncationMarker)) ∧
    ((joinedContent (d :: ds)).length ≤ contextCap →
      (extract_content split true fileSize fn (.ok (d :: ds))).map (fun r => r.content)
        = some (joinedContent (d :: ds))) ∧
    (∀ (sha : String → String) (chunks : List Segment),
      extract_and_hash_content sha (.ok chunks)
        = .ok (sha (joinedContent chunks), chunks)) := by
  refine ⟨?_, ?_, fun sha chunks => rfl⟩
  · intro hlen
    simp [extract_content, hsupp, hlen]
  · intro hlen
    simp [extract_content, hsupp, Nat.not_lt.mpr hlen]

/-- Witness for `attachment_truncation_spec`: a supported text file whose
single segment holds 4001 characters is truncated at 4000 with the marker. -/
theorem attachment_truncation_spec_witness :
    (extract_content (fun _ => []) true 0 "notes.txt"
        (.ok [⟨String.mk (List.replicate 4001 'a')⟩])).map (fun r => r.content)
      = some ((joinedContent [⟨String.mk (List.replicate 4001 'a')⟩]).take contextCap
          ++ truncationMarker) :=
  (attachment_truncation_spec (fun _ => []) 0 "notes.txt"
      ⟨String.mk (List.replicate 4001 'a')⟩ [] (by decide)).1
    (by
      have h1 : joinedContent [⟨String.mk (List.replicate 4001 'a')⟩]
          = String.mk (List.replicate 4001 'a') := rfl
      rw [h1]
      show contextCap < (List.replicate 4001 'a').length
      rw [List.length_replicate]
      decide)

/-- C10: `extract_content` is total at its public interface: it returns
`none` exactly when the file does not exist; when the file exists it always
returns a result dictionary, whose metadata `supported` flag is true exactly
when the extension has a handler and that handler did not raise; and a
raising handler never propagates — its message is recorded in the metadata
instead. -/
theorem extract_content_total (split : List Segment → List String)
    (fileSize : Nat) (fn : String) (handler : Except String (List Segment)) :
    (∀ fe : Bool, (extract_content split fe fileSize fn handler = none ↔ fe = false)) ∧
    ((extract_content split true fileSize fn handler).map (fun r => r.metadata.supported)
      = some (is_supported_file fn &&
          (match handler with | .ok _ => true | .error _ => false))) ∧
    (∀ e, handler = .error e → is_supported_file fn = true →
      (extract_content split true fileSize fn handler).map (fun r => r.metadata.error)
        = some (some e)) := by
  refine ⟨?_, ?_, ?_⟩
  · intro fe
    rcases fe with _ | _
    · simp [extract_content]
    · rcases handler with e | docs
      · by_cases hs : is_supported_file fn <;> simp [extract_content, hs]
      · rcases docs with _ | ⟨d, ds⟩ <;> by_cases hs : is_supported_file fn <;>
          simp [extract_content, hs]
  · rcases handler with e | docs
    · by_cases hs : is_supported_file fn <;> simp [extract_content, hs]
    · rcases docs with _ | ⟨d, ds⟩ <;> by_cases hs : is_supported_file fn <;>
        simp [extract_content, hs]
  · intro e he hsup
    subst he
    simp [extract_content, hsup]

/-- Witness for `extract_content_total`: a raising handler on a supported
file type surfaces its message in the metadata instead of propagating. -/
theorem extract_content_total_witness :
    (extract_content (fun _ => []) true 0 "a.txt" (.error "boom")).map
        (fun r => r.metadata.error) = some (some "boom") :=
  (extract_content_total (fun _ => []) 0 "a.txt" (.error "boom")).2.2 "boom" rfl (by decide)
